import Mathlib

set_option maxHeartbeats 1000000

/-!
Shallow embedding of the batch-orchestration core of the POD image
front-end (the App component together with the generation service
module).  Pure computations (filename sanitisation, folder grouping)
are translated directly.  React state is modelled by explicit store
passing: the component state variable holding the list of batches
becomes a value of type List BatchItem that every operation consumes
and returns.  The asynchronous generation client is abstracted as an
environment that yields, for each call, either an encoded image or an
error message; the cooperative stop condition observed at the head of
each loop iteration is likewise a function of the iteration index.
-/

/-- The two quality tiers ('normal' | 'pro' in the source). -/
inductive Mode where
  | normal
  | pro
  deriving DecidableEq

/-- Batch status ('idle' | 'processing' | 'completed' | 'error' | 'stopping'). -/
inductive Status where
  | idle
  | processing
  | completed
  | error
  | stopping
  deriving DecidableEq

/-- const isPro = mode === 'pro' in processBatch and onEditRegenerate. -/
def Mode.isPro : Mode → Bool
  | Mode.normal => false
  | Mode.pro => true

/-- The tier that is not the given one (used to state frame conditions). -/
def otherTier : Mode → Mode
  | Mode.normal => Mode.pro
  | Mode.pro => Mode.normal

/-- A reference image (interface ImageFile).  The raw browser File handle
is opaque to the core; the only field of it the logic ever reads is its
MIME type string, so the handle is modelled by that type string. -/
structure ImageFile where
  id : String
  fileType : String
  preview : String
  base64 : String
  deriving DecidableEq

/-- A batch (interface BatchItem).  Optional TypeScript fields become
Option; a freshly imported batch leaves them absent. -/
structure BatchItem where
  id : String
  name : String
  images : List ImageFile
  status : Status
  processingMode : Option Mode
  resultsNormal : List String
  resultsPro : List String
  customPrompt : Option String
  error : Option String
  deriving DecidableEq

/-- Accessor for the result sequence of a tier (b[isPro ? 'resultsPro' :
'resultsNormal'] reads in the source). -/
def tierResults (mode : Mode) (b : BatchItem) : List String :=
  match mode with
  | Mode.normal => b.resultsNormal
  | Mode.pro => b.resultsPro

/-- Writer for the result sequence of a tier (the computed-key update
{ ...b, [key]: ... } in the source). -/
def setTierResults (mode : Mode) (b : BatchItem) (rs : List String) : BatchItem :=
  match mode with
  | Mode.normal => { b with resultsNormal := rs }
  | Mode.pro => { b with resultsPro := rs }

/-- The empty string (named so that literals never directly follow an
identifier in application position). -/
def emptyStr : String := ""

/-- ASCII whitespace, the fragment of the JavaScript \s class that can
occur in the inputs handled here. -/
def isJsWs (c : Char) : Bool :=
  c == ' ' || c == Char.ofNat 9 || c == Char.ofNat 10 || c == Char.ofNat 13

/-- Characters kept verbatim by the first regex of cleanFileName:
the class [a-zA-Z0-9 ]. -/
def isCleanKeep (c : Char) : Bool :=
  (97 ≤ c.toNat && c.toNat ≤ 122) ||
  (65 ≤ c.toNat && c.toNat ≤ 90) ||
  (48 ≤ c.toNat && c.toNat ≤ 57) ||
  c == ' '

/-- One pass of the global replacement of a whitespace run by a single
space (the second regex of cleanFileName).  The Boolean records whether
the previous character belonged to a whitespace run. -/
def collapseWsAux : Bool → List Char → List Char
  | _, [] => []
  | prevWs, c :: rest =>
    if isJsWs c then
      if prevWs then collapseWsAux true rest
      else ' ' :: collapseWsAux true rest
    else c :: collapseWsAux false rest

/-- Replace every maximal whitespace run by one space. -/
def collapseWs (cs : List Char) : List Char :=
  collapseWsAux false cs

/-- Remove leading and trailing whitespace (String.prototype.trim). -/
def trimWs (cs : List Char) : List Char :=
  ((cs.dropWhile isJsWs).reverse.dropWhile isJsWs).reverse

/-- JavaScript trim on a Lean string. -/
def jsTrim (s : String) : String :=
  String.mk (trimWs s.data)

/-- cleanFileName: name.replace of every character outside [a-zA-Z0-9 ]
by a space, then global replacement of whitespace runs by one space,
then trim.  Defined identically in the edit modal and in the App body. -/
def cleanFileName (name : String) : String :=
  String.mk (trimWs (collapseWs (name.data.map (fun c => if isCleanKeep c then c else ' '))))

/-- String.prototype.split on the slash character, accumulating the
current segment in reverse. -/
def splitPathAux : List Char → List Char → List String
  | [], cur => [String.mk cur.reverse]
  | c :: rest, cur =>
    if c == '/' then String.mk cur.reverse :: splitPathAux rest []
    else splitPathAux rest (c :: cur)

/-- webkitRelativePath.split of the slash separator. -/
def splitPath (s : String) : List String :=
  splitPathAux s.data []

/-- String.prototype.startsWith restricted to the uses in the source. -/
def startsWithStr (p s : String) : Bool :=
  p.data.isPrefixOf s.data

/-- The MIME-type test f.type.startsWith of the image slash marker. -/
def imageSlash : String := "image/"

/-- A file handed to the folder-import handler: its webkitRelativePath,
its MIME type, and the data-URL that fileToBase64 produces from it. -/
structure UploadFile where
  relativePath : String
  fileType : String
  content : String
  deriving DecidableEq

/-- grouped[name].push(f), with a fresh key appended at the end: plain
JavaScript objects enumerate non-integer string keys in insertion
order, which an association list models directly. -/
def addToGroup (g : List (String × List UploadFile)) (name : String) (f : UploadFile) :
    List (String × List UploadFile) :=
  match g with
  | [] => [(name, [f])]
  | (n, fs) :: rest =>
    if n = name then (n, fs ++ [f]) :: rest
    else (n, fs) :: addToGroup rest name f

/-- The grouping loop of handleFolderUpload: skip non-image files, split
the relative path, and only when it has more than two segments file the
upload under its second-to-last segment. -/
def groupFiles (files : List UploadFile) : List (String × List UploadFile) :=
  files.foldl
    (fun g f =>
      if startsWithStr imageSlash f.fileType then
        let parts := splitPath f.relativePath
        if parts.length > 2 then addToGroup g (parts.getD (parts.length - 2) emptyStr) f
        else g
      else g)
    []

/-- Suppliers for the values the import obtains from the browser: the
random batch and image identifiers and the object URLs used as
previews.  They are opaque to every property proved here. -/
structure ImportEnv where
  batchId : Nat → String
  imageId : Nat → Nat → String
  preview : Nat → Nat → String

/-- Builds the ImageFile records of one new batch from its (already
truncated) file group; the index argument numbers the images. -/
def mkImages (imgId : Nat → String) (pv : Nat → String) : Nat → List UploadFile → List ImageFile
  | _, [] => []
  | i, f :: rest =>
    { id := imgId i, fileType := f.fileType, preview := pv i, base64 := f.content } ::
      mkImages imgId pv (i + 1) rest

/-- Builds the new BatchItem records from the grouped files: each group
becomes an idle batch named after its folder, holding the first five
images of the group and two empty result sequences. -/
def mkBatches (env : ImportEnv) : Nat → List (String × List UploadFile) → List BatchItem
  | _, [] => []
  | k, (name, fs) :: rest =>
    { id := env.batchId k, name := name,
      images := mkImages (env.imageId k) (env.preview k) 0 (fs.take 5),
      status := Status.idle, processingMode := none,
      resultsNormal := [], resultsPro := [],
      customPrompt := none, error := none } :: mkBatches env (k + 1) rest

/-- handleFolderUpload: group the chosen files, build the new batches,
and append them to the existing collection. -/
def handleFolderUpload (env : ImportEnv) (files : List UploadFile) (prev : List BatchItem) :
    List BatchItem :=
  prev ++ mkBatches env 0 (groupFiles files)

/-- batches.find of the batch with the given id (also covers the
findIndex use, which addresses the same first match). -/
def findBatch (s : List BatchItem) (bid : String) : Option BatchItem :=
  s.find? (fun b => b.id == bid)

/-- The setBatches mutation pattern: map over the collection and replace
exactly the batches whose id matches. -/
def updateBatch (s : List BatchItem) (bid : String) (f : BatchItem → BatchItem) :
    List BatchItem :=
  s.map (fun b => if b.id == bid then f b else b)

/-- Entry to a run: status processing, processingMode set, error cleared. -/
def startRun (mode : Mode) (b : BatchItem) : BatchItem :=
  { b with status := Status.processing, processingMode := some mode, error := none }

/-- Successful end of a run: status completed and the chosen tier result
sequence replaced wholesale by the accumulated urls. -/
def commitRun (isPro : Bool) (resUrls : List String) (b : BatchItem) : BatchItem :=
  { b with status := Status.completed,
           resultsNormal := if isPro then b.resultsNormal else resUrls,
           resultsPro := if isPro then resUrls else b.resultsPro }

/-- Failed end of a run: status error and the message recorded; the
locally accumulated urls are discarded. -/
def failRun (msg : String) (b : BatchItem) : BatchItem :=
  { b with status := Status.error, error := some msg }

/-- Environment of one run.  stopAt i is the value of the stop check of
loop iteration i: shouldStopGlobal or the looked-up status equal to
stopping.  Because that check reads the render-time bindings the
closure captured, not the live store, in every execution of the source
the value is the same constant at every iteration of one run (constStop
below builds exactly these realizable instances); the field is a
function of the iteration index only so that the theorems quantify over
every instance, the constant ones included.  gen i images prompt isPro
is the outcome of the i-th generatePodImage call of the run (one image
or a thrown message). -/
structure RunEnv where
  stopAt : Nat → Bool
  gen : Nat → List ImageFile → Option String → Bool → Except String String

/-- The stop conditions the program can actually produce: the check at
the head of each iteration reads the closure-captured batches array and
stop flag, so its value is fixed when the run starts and a status that
becomes stopping mid-run is never observed. -/
def constStop (b : Bool) : Nat → Bool := fun _ => b

/-- The generation loop of processBatch: up to the given fuel many
iterations, checking the stop condition before each call, accumulating
one url per successful call, and aborting on the first failure with the
accumulator discarded. -/
def runLoopAux (env : RunEnv) (batch : BatchItem) (isPro : Bool) :
    Nat → Nat → List String → Except String (List String)
  | 0, _, acc => Except.ok acc
  | n + 1, i, acc =>
    if env.stopAt i then Except.ok acc
    else
      match env.gen i batch.images batch.customPrompt isPro with
      | Except.ok img => runLoopAux env batch isPro n (i + 1) (acc ++ [img])
      | Except.error msg => Except.error msg

/-- processBatch: look the batch up (findIndex guard), mark it
processing, run the loop over outputsPerBatch iterations reading the
generation inputs from the pre-run snapshot, then either commit the
accumulated urls into the chosen tier with status completed, or record
the failure with status error.  The entitlement side effects of the
catch branch touch no batch state and are omitted. -/
def processBatch (env : RunEnv) (outputsPerBatch : Nat) (s : List BatchItem)
    (bid : String) (mode : Mode) : List BatchItem :=
  match findBatch s bid with
  | none => s
  | some batch =>
    match runLoopAux env batch mode.isPro outputsPerBatch 0 [] with
    | Except.ok resUrls =>
      updateBatch (updateBatch s bid (startRun mode)) bid (commitRun mode.isPro resUrls)
    | Except.error msg =>
      updateBatch (updateBatch s bid (startRun mode)) bid (failRun msg)

/-- stopBatch: flip the status of one batch to stopping in the live
store.  An in-flight run never re-reads the live store (its stop check
consults the captured snapshot), so this write does not reach it. -/
def stopBatch (s : List BatchItem) (bid : String) : List BatchItem :=
  updateBatch s bid (fun b => { b with status := Status.stopping })

/-- Per-started-run environments handed to the fleet loop. -/
structure FleetEnv where
  runEnv : Nat → RunEnv

/-- The body of processAll: iterate the render-time batch list, and
before each batch consult the stop flag.  The flag variable read inside
the loop is the binding captured when the closure was created, so it is
constant for the whole invocation; it is therefore a plain Boolean
argument.  The second component counts the batch runs started. -/
def processAllAux (capturedStop : Bool) (fenv : FleetEnv) (o : Nat) (mode : Mode) :
    List BatchItem → Nat → List BatchItem → List BatchItem × Nat
  | [], _, cur => (cur, 0)
  | b :: rest, k, cur =>
    if capturedStop then (cur, 0)
    else
      let r := processAllAux capturedStop fenv o mode rest (k + 1)
        (processBatch (fenv.runEnv k) o cur b.id mode)
      (r.1, r.2 + 1)

/-- processAll: run every batch of the snapshot sequentially.  The
initial setShouldStopGlobal call schedules a reset for later renders
but does not change the captured binding the loop reads. -/
def processAll (capturedStop : Bool) (fenv : FleetEnv) (o : Nat) (mode : Mode)
    (s : List BatchItem) : List BatchItem × Nat :=
  processAllAux capturedStop fenv o mode s 0 s

/-- The coordinates of the result being edited (editTarget without its
data field, which lives in the session state below). -/
structure EditTarget where
  batchId : String
  index : Nat
  mode : Mode
  deriving DecidableEq

/-- The live state of one open edit modal: the image currently shown
(editTarget.data, passed to the modal as its image prop), the undo
stack (history), the redo stack, and the prompt text. -/
structure EditSession where
  image : String
  history : List String
  redoStack : List String
  prompt : String
  deriving DecidableEq

/-- The indexed map over a result sequence used by onSave and
onEditRegenerate: replace the element at idx (or every element when
applyToAll holds) by the new value. -/
def replaceAt (idx : Nat) (v : String) (applyToAll : Bool) : Nat → List String → List String
  | _, [] => []
  | i, r :: rest =>
    (if (i == idx) || applyToAll then v else r) :: replaceAt idx v applyToAll (i + 1) rest

/-- The onSave callback the App installs on the modal: write the new
value into the addressed tier sequence at the index (or everywhere),
and, unless applying to all, also make it the image shown. -/
def onSave (tgt : EditTarget) (newB64 : String) (applyToAll : Bool)
    (sess : EditSession) (s : List BatchItem) : EditSession × List BatchItem :=
  ((if applyToAll then sess else { sess with image := newB64 }),
   updateBatch s tgt.batchId (fun b =>
     setTierResults tgt.mode b (replaceAt tgt.index newB64 applyToAll 0 (tierResults tgt.mode b))))

/-- handleRegenerate composed with onEditRegenerate.  A blank prompt
returns immediately.  Otherwise the current image is pushed onto the
undo stack and the redo stack is cleared before the client is called;
on success the new image replaces both the shown image and the store
entry at the originating position, and the prompt is cleared; on
failure (caught inside onEditRegenerate) only the prompt reset remains. -/
def handleRegenerate (genOutcome : Except String String) (tgt : EditTarget)
    (sess : EditSession) (s : List BatchItem) : EditSession × List BatchItem :=
  if jsTrim sess.prompt = emptyStr then (sess, s)
  else
    match genOutcome with
    | Except.ok newB64 =>
      ({ sess with history := sess.history ++ [sess.image], redoStack := [],
                   image := newB64, prompt := emptyStr },
       updateBatch s tgt.batchId (fun b =>
         setTierResults tgt.mode b (replaceAt tgt.index newB64 false 0 (tierResults tgt.mode b))))
    | Except.error _ =>
      ({ sess with history := sess.history ++ [sess.image], redoStack := [],
                   prompt := emptyStr }, s)

/-- handleUndo: pop the most recent prior image, push the shown image
onto the redo stack, and save the popped image (which commits it to the
store and makes it the shown image, without touching the undo stack). -/
def handleUndo (tgt : EditTarget) (sess : EditSession) (s : List BatchItem) :
    EditSession × List BatchItem :=
  match sess.history.getLast? with
  | none => (sess, s)
  | some previous =>
    onSave tgt previous false
      { sess with redoStack := sess.redoStack ++ [sess.image],
                  history := sess.history.dropLast }
      s

/-- handleRedo: symmetric inverse of handleUndo. -/
def handleRedo (tgt : EditTarget) (sess : EditSession) (s : List BatchItem) :
    EditSession × List BatchItem :=
  match sess.redoStack.getLast? with
  | none => (sess, s)
  | some next =>
    onSave tgt next false
      { sess with history := sess.history ++ [sess.image],
                  redoStack := sess.redoStack.dropLast }
      s

/-- handleInputDropAdd: reject non-image files, otherwise append the new
reference image and truncate to five. -/
def handleInputDropAdd (bid : String) (file : UploadFile) (newId newPreview : String)
    (s : List BatchItem) : List BatchItem :=
  if startsWithStr imageSlash file.fileType then
    updateBatch s bid (fun b =>
      { b with images := (b.images ++
          [({ id := newId, fileType := file.fileType, preview := newPreview,
              base64 := file.content } : ImageFile)]).take 5 })
  else s

/-- handleInputDropReplace: reject non-image files, otherwise replace in
place (same id) the payload, preview and file handle of the addressed
reference image. -/
def handleInputDropReplace (bid imgId : String) (file : UploadFile) (newPreview : String)
    (s : List BatchItem) : List BatchItem :=
  if startsWithStr imageSlash file.fileType then
    updateBatch s bid (fun b =>
      { b with images := b.images.map (fun i =>
          if i.id == imgId then
            { i with base64 := file.content, preview := newPreview, fileType := file.fileType }
          else i) })
  else s

/-- handleDeleteInput: remove the addressed reference image. -/
def handleDeleteInput (bid imgId : String) (s : List BatchItem) : List BatchItem :=
  updateBatch s bid (fun b => { b with images := b.images.filter (fun i => !(i.id == imgId)) })

/-- The invariant of claim C9: every batch holds at most five reference
images. -/
def ImagesInv (s : List BatchItem) : Prop :=
  ∀ b ∈ s, b.images.length ≤ 5

/-- The observation a run on the given tier must leave intact: identity,
name, reference images, custom prompt, and the other tier result
sequence. -/
def runFrame (mode : Mode) (b : BatchItem) :
    String × String × List ImageFile × Option String × List String :=
  (b.id, b.name, b.images, b.customPrompt, tierResults (otherTier mode) b)

/-- Apostrophe and e-acute, the non-ASCII characters of the sanitisation
example, given by code point. -/
def apos : Char := Char.ofNat 39

/-- Latin small letter e with acute accent. -/
def eAcute : Char := Char.ofNat 233

/-- The example input of the sanitisation property. -/
def nekoInput : String :=
  String.mk ['N', eAcute, 'k', 'o', apos, 's', ' ', 'S', 'h', 'o', 'p', '!', ' ', '#', '1']

/-- The value the claim predicts for the example. -/
def nekoClaimed : String := "Nkos Shop 1"

/-- The value the code produces for the example. -/
def nekoActual : String := "N ko s Shop 1"

/-- Concrete import environment for closed evaluations; the random
identifiers and object URLs are irrelevant to every property. -/
def env0 : ImportEnv :=
  { batchId := fun _ => "B", imageId := fun _ _ => "I", preview := fun _ _ => "P" }

/-- The flat file set of claim C1, with two-segment relative paths. -/
def catsDogsFlat : List UploadFile :=
  [{ relativePath := "Cats/a.png", fileType := "image/png", content := "A" },
   { relativePath := "Cats/b.png", fileType := "image/png", content := "B" },
   { relativePath := "Dogs/c.png", fileType := "image/png", content := "C" }]

/-- The same files as a browser folder pick delivers them, with the
chosen root folder as first path segment. -/
def catsDogsNested : List UploadFile :=
  [{ relativePath := "Pod/Cats/a.png", fileType := "image/png", content := "A" },
   { relativePath := "Pod/Cats/b.png", fileType := "image/png", content := "B" },
   { relativePath := "Pod/Dogs/c.png", fileType := "image/png", content := "C" }]

/-- Folder name of the first expected batch. -/
def catsName : String := "Cats"

/-- Folder name of the second expected batch. -/
def dogsName : String := "Dogs"

/-- Identifier of the concrete batch used by run witnesses. -/
def bid1 : String := "b1"

/-- A stale result left by an earlier run. -/
def oldNormal : String := "oldN"

/-- A stale pro result left by an earlier run. -/
def oldPro : String := "oldP"

/-- Concrete batch used by the run witnesses. -/
def batch0 : BatchItem :=
  { id := bid1, name := catsName, images := [], status := Status.idle,
    processingMode := none, resultsNormal := [oldNormal], resultsPro := [oldPro],
    customPrompt := none, error := none }

/-- Concrete one-batch store used by the run witnesses. -/
def st0 : List BatchItem := [batch0]

/-- The failure message of the concrete failing generation client. -/
def boomMsg : String := "boom"

/-- A concrete generated image. -/
def imgX : String := "X"

/-- A run environment whose very first generation call fails. -/
def envFail : RunEnv :=
  { stopAt := fun _ => false, gen := fun _ _ _ _ => Except.error boomMsg }

/-- A run environment that always generates successfully. -/
def envOk : RunEnv :=
  { stopAt := fun _ => false, gen := fun _ _ _ _ => Except.ok imgX }

/-- The run started while a stop was requested mid-run: the stop check
keeps the condition captured at run start, false, for every iteration,
whatever the live status later becomes; the calls succeed. -/
def envMidStop : RunEnv :=
  { stopAt := constStop false, gen := fun _ _ _ _ => Except.ok imgX }

/-- The only realizable stopping run: the condition was already true
when the run started, so the check fires before the first call. -/
def envPreStop : RunEnv :=
  { stopAt := constStop true, gen := fun _ _ _ _ => Except.ok imgX }

/-- Concrete fleet environment. -/
def fenv0 : FleetEnv := { runEnv := fun _ => envOk }

/-- Concrete edit target used by the editing witnesses. -/
def tgt0 : EditTarget := { batchId := bid1, index := 0, mode := Mode.normal }

/-- Concrete editing session with a nonempty undo stack, a nonempty redo
stack and a nonblank prompt. -/
def sess0 : EditSession :=
  { image := "A", history := ["H"], redoStack := ["R"], prompt := "x" }

/-- A concrete upload used by the invariant witness. -/
def fileW : UploadFile :=
  { relativePath := "w.png", fileType := "image/png", content := "W" }


/-- A one-step unfolding of the generation loop at positive fuel. -/
theorem runLoopAux_succ (env : RunEnv) (batch : BatchItem) (isPro : Bool)
    (n i : Nat) (acc : List String) :
    runLoopAux env batch isPro (n + 1) i acc =
      if env.stopAt i then Except.ok acc
      else
        match env.gen i batch.images batch.customPrompt isPro with
        | Except.ok img => runLoopAux env batch isPro n (i + 1) (acc ++ [img])
        | Except.error msg => Except.error msg := rfl

/-- If the stop condition stays false up to iteration k, every call
before k succeeds, and the call at k fails with msg, the loop aborts
with exactly that message. -/
theorem runLoopAux_error (env : RunEnv) (batch : BatchItem) (isPro : Bool) :
    ∀ (n i : Nat) (acc : List String) (k : Nat) (msg : String),
      i ≤ k → k < i + n →
      (∀ j, i ≤ j → j ≤ k → env.stopAt j = false) →
      (∀ j, i ≤ j → j < k → ∃ img, env.gen j batch.images batch.customPrompt isPro = Except.ok img) →
      env.gen k batch.images batch.customPrompt isPro = Except.error msg →
      runLoopAux env batch isPro n i acc = Except.error msg := by
  intro n
  induction n with
  | zero => intro i acc k msg hik hkn _ _ _; omega
  | succ n ih =>
    intro i acc k msg hik hkn hstop hok herr
    have hi : env.stopAt i = false := hstop i (Nat.le_refl i) hik
    rcases Nat.eq_or_lt_of_le hik with hki | hki
    · subst hki
      simp [runLoopAux_succ, hi, herr]
    · obtain ⟨img, hgen⟩ := hok i (Nat.le_refl i) hki
      have := ih (i + 1) (acc ++ [img]) k msg (by omega) (by omega)
        (fun j hj1 hj2 => hstop j (by omega) hj2)
        (fun j hj1 hj2 => hok j (by omega) hj2) herr
      simp [runLoopAux_succ, hi, hgen, this]

/-- A successful loop returns the accumulator followed by one url per
successful call, in call order, at most fuel many of them. -/
theorem runLoopAux_ok_spec (env : RunEnv) (batch : BatchItem) (isPro : Bool) :
    ∀ (n i : Nat) (acc res : List String),
      runLoopAux env batch isPro n i acc = Except.ok res →
      ∃ t, res = acc ++ t ∧ t.length ≤ n ∧
        ∀ j, j < t.length →
          env.gen (i + j) batch.images batch.customPrompt isPro = Except.ok (t.getD j emptyStr) := by
  intro n
  induction n with
  | zero =>
    intro i acc res h
    refine ⟨[], ?_, by simp, fun j hj => absurd hj (by simp)⟩
    simp [runLoopAux] at h
    simp [h]
  | succ n ih =>
    intro i acc res h
    rw [runLoopAux_succ] at h
    cases hi : env.stopAt i with
    | true =>
      rw [hi] at h
      simp at h
      exact ⟨[], by simp [h], by simp, fun j hj => absurd hj (by simp)⟩
    | false =>
      rw [hi] at h
      simp at h
      cases hgen : env.gen i batch.images batch.customPrompt isPro with
      | error msg => rw [hgen] at h; exact Except.noConfusion h
      | ok img =>
        rw [hgen] at h
        obtain ⟨t, ht, hlen, hspec⟩ := ih (i + 1) (acc ++ [img]) res h
        refine ⟨img :: t, ?_, by simp; omega, ?_⟩
        · simp [ht]
        · intro j hj
          cases j with
          | zero => simpa using hgen
          | succ j =>
            have hij : i + (j + 1) = (i + 1) + j := by omega
            rw [hij]
            simp only [List.getD_cons_succ]
            exact hspec j (by simpa using hj)

/-- A replace-by-id whose update keeps identifiers rewrites the first
match of a lookup and nothing before it. -/
theorem findBatch_updateBatch (s : List BatchItem) (bid : String) (f : BatchItem → BatchItem)
    (hf : ∀ b, (f b).id = b.id) :
    findBatch (updateBatch s bid f) bid = (findBatch s bid).map f := by
  induction s with
  | nil => rfl
  | cons a l ih =>
    have hcons : updateBatch (a :: l) bid f
        = (if a.id == bid then f a else a) :: updateBatch l bid f := rfl
    cases h : (a.id == bid) with
    | true =>
      have hfa : ((f a).id == bid) = true := by rw [hf a]; exact h
      rw [hcons, if_pos h]
      show List.find? (fun b => b.id == bid) (f a :: updateBatch l bid f)
          = (List.find? (fun b => b.id == bid) (a :: l)).map f
      simp only [List.find?, hfa, h]
      rfl
    | false =>
      have hne : ¬ ((a.id == bid) = true) := by rw [h]; exact Bool.false_ne_true
      rw [hcons, if_neg hne]
      show List.find? (fun b => b.id == bid) (a :: updateBatch l bid f)
          = (List.find? (fun b => b.id == bid) (a :: l)).map f
      simp only [List.find?, h]
      exact ih

/-- The two successive store updates a run performs, seen through the
lookup of the addressed batch. -/
theorem findBatch_update_update (s : List BatchItem) (bid : String)
    (f g : BatchItem → BatchItem) (batch : BatchItem)
    (hf : ∀ b, (f b).id = b.id) (hg : ∀ b, (g b).id = b.id)
    (hfind : findBatch s bid = some batch) :
    findBatch (updateBatch (updateBatch s bid f) bid g) bid = some (g (f batch)) := by
  rw [findBatch_updateBatch _ _ _ hg, findBatch_updateBatch _ _ _ hf, hfind]
  rfl

/-- The three per-run update functions keep batch identifiers. -/
theorem startRun_id (mode : Mode) (b : BatchItem) : (startRun mode b).id = b.id := rfl

/-- The commit update keeps batch identifiers. -/
theorem commitRun_id (p : Bool) (res : List String) (b : BatchItem) :
    (commitRun p res b).id = b.id := rfl

/-- The failure update keeps batch identifiers. -/
theorem failRun_id (msg : String) (b : BatchItem) : (failRun msg b).id = b.id := rfl

/-- Committing a run writes exactly the chosen tier sequence. -/
theorem tierResults_commitRun (mode : Mode) (res : List String) (b : BatchItem) :
    tierResults mode (commitRun mode.isPro res b) = res := by
  cases mode <;> rfl

/-- processBatch on a failing loop is the two error-path updates. -/
theorem processBatch_eq_of_error (env : RunEnv) (o : Nat) (s : List BatchItem)
    (bid : String) (mode : Mode) (batch : BatchItem) (msg : String)
    (hfind : findBatch s bid = some batch)
    (hrun : runLoopAux env batch mode.isPro o 0 [] = Except.error msg) :
    processBatch env o s bid mode =
      updateBatch (updateBatch s bid (startRun mode)) bid (failRun msg) := by
  simp only [processBatch, hfind, hrun]

/-- processBatch on a successful loop is the two commit-path updates. -/
theorem processBatch_eq_of_ok (env : RunEnv) (o : Nat) (s : List BatchItem)
    (bid : String) (mode : Mode) (batch : BatchItem) (res : List String)
    (hfind : findBatch s bid = some batch)
    (hrun : runLoopAux env batch mode.isPro o 0 [] = Except.ok res) :
    processBatch env o s bid mode =
      updateBatch (updateBatch s bid (startRun mode)) bid (commitRun mode.isPro res) := by
  simp only [processBatch, hfind, hrun]

/-- Marking a batch as processing changes none of the frame fields. -/
theorem runFrame_startRun (mode m : Mode) (b : BatchItem) :
    runFrame mode (startRun m b) = runFrame mode b := by
  cases mode <;> rfl

/-- Committing a run on a tier changes none of the frame fields of that
tier, in particular not the other tier result sequence. -/
theorem runFrame_commitRun (mode : Mode) (res : List String) (b : BatchItem) :
    runFrame mode (commitRun mode.isPro res b) = runFrame mode b := by
  cases mode <;> rfl

/-- Recording a failure changes none of the frame fields. -/
theorem runFrame_failRun (mode : Mode) (msg : String) (b : BatchItem) :
    runFrame mode (failRun msg b) = runFrame mode b := by
  cases mode <;> rfl

/-- A replace-by-id whose update function preserves the frame leaves the
frame of every position of the store unchanged. -/
theorem getElem_updateBatch_frame (mode : Mode) (s : List BatchItem) (bid : String)
    (f : BatchItem → BatchItem) (hf : ∀ b, runFrame mode (f b) = runFrame mode b) (i : Nat) :
    ((updateBatch s bid f)[i]?).map (runFrame mode) = (s[i]?).map (runFrame mode) := by
  unfold updateBatch
  rw [List.getElem?_map]
  cases h : s[i]? with
  | none => rfl
  | some b =>
    by_cases hb : b.id = bid
    · simp [hb, hf b]
    · simp [hb]

/-- The length of the freshly built image list equals the length of the
truncated file group. -/
theorem mkImages_length (imgId pv : Nat → String) :
    ∀ (i : Nat) (l : List UploadFile), (mkImages imgId pv i l).length = l.length := by
  intro i l
  induction l generalizing i with
  | nil => rfl
  | cons f rest ih => simp [mkImages, ih]

/-- Every batch created by the import holds at most five images. -/
theorem mkBatches_images_le (env : ImportEnv) :
    ∀ (g : List (String × List UploadFile)) (k : Nat) (b : BatchItem),
      b ∈ mkBatches env k g → b.images.length ≤ 5 := by
  intro g
  induction g with
  | nil => intro k b hb; exact absurd hb (List.not_mem_nil b)
  | cons nf rest ih =>
    intro k b hb
    rcases nf with ⟨name, fs⟩
    rcases List.mem_cons.mp hb with hb | hb
    · subst hb
      show (mkImages (env.imageId k) (env.preview k) 0 (fs.take 5)).length ≤ 5
      rw [mkImages_length, List.length_take]
      exact min_le_left 5 fs.length
    · exact ih (k + 1) b hb

/-- A replace-by-id whose update function preserves the five-image bound
preserves the store invariant. -/
theorem ImagesInv_updateBatch (s : List BatchItem) (bid : String) (f : BatchItem → BatchItem)
    (hf : ∀ b, b.images.length ≤ 5 → (f b).images.length ≤ 5)
    (hs : ImagesInv s) : ImagesInv (updateBatch s bid f) := by
  intro b hb
  obtain ⟨a, ha, rfl⟩ := List.mem_map.mp hb
  by_cases hab : (a.id == bid) = true
  · rw [if_pos hab]
    exact hf a (hs a ha)
  · rw [if_neg hab]
    exact hs a ha

/-- Claim C1, counterexample: importing the flat file set of the claim,
whose relative paths have only two segments, creates no batch at all,
because the grouping step requires more than two path segments. -/
theorem folder_import_flat_paths_yield_no_batches :
    handleFolderUpload env0 catsDogsFlat [] = [] := by decide

/-- Claim C1, amended: folder import groups image files whose relative
path has more than two segments by the second-to-last segment; the same
three files under a root folder, as a browser folder pick delivers
them, produce exactly two batches, Cats with two images and Dogs with
one, in this order, whatever identifiers and previews the browser
supplies. -/
theorem folder_import_groups_by_parent_folder (env : ImportEnv) :
    (handleFolderUpload env catsDogsNested []).map (fun b => (b.name, b.images.length))
      = [(catsName, 2), (dogsName, 1)] := rfl

/-- Claim C2, counterexample: the sanitisation of the example input is
not the claimed value, because the first replacement writes a space for
each disallowed character instead of deleting it. -/
theorem cleanFileName_neko_not_stripped : cleanFileName nekoInput ≠ nekoClaimed := by decide

/-- Claim C2, amended: the sanitisation replaces every character outside
letters, digits and space by a space, collapses whitespace runs to one
space and trims, so the example input yields the value with inner
spaces kept where characters were replaced. -/
theorem cleanFileName_neko_value : cleanFileName nekoInput = nekoActual := by decide

/-- Claim C3: when the first failing generation call of a run is reached
(no earlier stop, all earlier calls succeed), the run aborts with the
batch in status error, the error field holding the failure message, and
both tier result sequences exactly as before the run: the urls already
accumulated in this run are discarded, never committed. -/
theorem processBatch_failure_sets_error_and_rolls_back
    (env : RunEnv) (o : Nat) (s : List BatchItem) (bid : String) (mode : Mode)
    (batch : BatchItem) (k : Nat) (msg : String)
    (hfind : findBatch s bid = some batch)
    (hk : k < o)
    (hstop : ∀ j, j ≤ k → env.stopAt j = false)
    (hok : ∀ j, j < k → ∃ img, env.gen j batch.images batch.customPrompt mode.isPro = Except.ok img)
    (herr : env.gen k batch.images batch.customPrompt mode.isPro = Except.error msg) :
    ∃ b2, findBatch (processBatch env o s bid mode) bid = some b2 ∧
      b2.status = Status.error ∧ b2.error = some msg ∧
      b2.resultsNormal = batch.resultsNormal ∧ b2.resultsPro = batch.resultsPro := by
  have hrun : runLoopAux env batch mode.isPro o 0 [] = Except.error msg :=
    runLoopAux_error env batch mode.isPro o 0 [] k msg (Nat.zero_le k) (by omega)
      (fun j _ hj => hstop j hj) (fun j _ hj => hok j hj) herr
  rw [processBatch_eq_of_error env o s bid mode batch msg hfind hrun]
  exact ⟨failRun msg (startRun mode batch),
    findBatch_update_update s bid _ _ batch (fun b => rfl) (fun b => rfl) hfind,
    rfl, rfl, rfl, rfl⟩

/-- Claim C3 witness: a concrete run whose very first call fails. -/
theorem processBatch_failure_witness :
    ∃ b2, findBatch (processBatch envFail 1 st0 bid1 Mode.normal) bid1 = some b2 ∧
      b2.status = Status.error ∧ b2.error = some boomMsg ∧
      b2.resultsNormal = batch0.resultsNormal ∧ b2.resultsPro = batch0.resultsPro :=
  processBatch_failure_sets_error_and_rolls_back envFail 1 st0 bid1 Mode.normal batch0 0 boomMsg
    rfl (by decide) (fun j _ => rfl) (fun j hj => absurd hj (Nat.not_lt_zero j)) rfl

/-- Claim C4, failing run: the claim requires a run whose batch becomes
stopping before some iteration to end completed with strictly fewer
than outputsPerBatch results, but the stop check reads the bindings
captured at run start, so the condition stays at its captured value for
the whole run.  With outputsPerBatch = 2 and succeeding calls, a run
whose live status is flipped to stopping between the calls still ends
with the full 2 results (first conjunct, envMidStop); the only
realizable stopping run is one whose captured condition was already
true, and it stops before the first call with 0 results (second
conjunct, envPreStop): a partial nonempty result sequence is never
produced. -/
theorem stopping_mid_run_never_observed :
    (findBatch (processBatch envMidStop 2 st0 bid1 Mode.normal) bid1).map
        (fun b => (b.status, (tierResults Mode.normal b).length)) = some (Status.completed, 2) ∧
    (findBatch (processBatch envPreStop 2 st0 bid1 Mode.normal) bid1).map
        (fun b => (b.status, (tierResults Mode.normal b).length)) = some (Status.completed, 0) := by
  decide

/-- Claim C10: a run that finishes without failure replaces the tier
result sequence wholesale by exactly the urls generated in this run,
one per successful call and in call order, at most outputsPerBatch of
them; earlier results of that tier are discarded, not appended to. -/
theorem processBatch_success_replaces_tier_results
    (env : RunEnv) (o : Nat) (s : List BatchItem) (bid : String) (mode : Mode)
    (batch : BatchItem) (res : List String)
    (hfind : findBatch s bid = some batch)
    (hrun : runLoopAux env batch mode.isPro o 0 [] = Except.ok res) :
    ∃ b2, findBatch (processBatch env o s bid mode) bid = some b2 ∧
      b2.status = Status.completed ∧
      tierResults mode b2 = res ∧ res.length ≤ o ∧
      ∀ j, j < res.length →
        env.gen j batch.images batch.customPrompt mode.isPro
          = Except.ok (res.getD j emptyStr) := by
  obtain ⟨t, ht, hlen, hspec⟩ := runLoopAux_ok_spec env batch mode.isPro o 0 [] res hrun
  have hteq : res = t := by simpa using ht
  subst hteq
  rw [processBatch_eq_of_ok env o s bid mode batch res hfind hrun]
  refine ⟨commitRun mode.isPro res (startRun mode batch),
    findBatch_update_update s bid _ _ batch (fun b => rfl) (fun b => rfl) hfind,
    rfl, tierResults_commitRun mode res (startRun mode batch), hlen, ?_⟩
  intro j hj
  simpa using hspec j hj

/-- Claim C10 witness: a concrete two-call run over a batch holding a
stale earlier result, which the commit replaces wholesale. -/
theorem processBatch_success_witness :
    ∃ b2, findBatch (processBatch envOk 2 st0 bid1 Mode.normal) bid1 = some b2 ∧
      b2.status = Status.completed ∧
      tierResults Mode.normal b2 = [imgX, imgX] ∧ ([imgX, imgX] : List String).length ≤ 2 ∧
      ∀ j, j < ([imgX, imgX] : List String).length →
        envOk.gen j batch0.images batch0.customPrompt Mode.normal.isPro
          = Except.ok (([imgX, imgX] : List String).getD j emptyStr) :=
  processBatch_success_replaces_tier_results envOk 2 st0 bid1 Mode.normal batch0 [imgX, imgX]
    rfl rfl

/-- Claim C8: a run on one tier changes at most the status, the
processing mode, the error field and that tier result sequence: at
every position of the store, the batch identifier, name, reference
images, custom prompt and the other tier result sequence read exactly
as before the run. -/
theorem processBatch_frame_other_fields_unchanged
    (env : RunEnv) (o : Nat) (s : List BatchItem) (bid : String) (mode : Mode) (i : Nat) :
    ((processBatch env o s bid mode)[i]?).map (runFrame mode) = (s[i]?).map (runFrame mode) := by
  cases hfind : findBatch s bid with
  | none => simp [processBatch, hfind]
  | some batch =>
    cases hrun : runLoopAux env batch mode.isPro o 0 [] with
    | ok res =>
      rw [processBatch_eq_of_ok env o s bid mode batch res hfind hrun,
        getElem_updateBatch_frame mode _ bid _ (fun b => runFrame_commitRun mode res b) i,
        getElem_updateBatch_frame mode s bid _ (fun b => runFrame_startRun mode mode b) i]
    | error msg =>
      rw [processBatch_eq_of_error env o s bid mode batch msg hfind hrun,
        getElem_updateBatch_frame mode _ bid _ (fun b => runFrame_failRun mode msg b) i,
        getElem_updateBatch_frame mode s bid _ (fun b => runFrame_startRun mode mode b) i]

/-- Claim C7: with the captured global stop flag already set when
processAll is invoked, the loop breaks before its first batch: zero
runs are started and the store is returned unchanged. -/
theorem processAll_stopped_runs_nothing (fenv : FleetEnv) (o : Nat) (mode : Mode)
    (s : List BatchItem) :
    processAll true fenv o mode s = (s, 0) := by
  cases s <;> rfl

/-- Claim C9: if every batch of the store holds at most five reference
images, the same holds after a folder import, a drag-drop add, a
drag-drop replace and a delete, whatever and however many files are
supplied. -/
theorem images_length_le_five_preserved (env : ImportEnv) (files : List UploadFile)
    (s : List BatchItem) (bid imgId newId newPreview : String) (file : UploadFile)
    (hs : ImagesInv s) :
    ImagesInv (handleFolderUpload env files s) ∧
    ImagesInv (handleInputDropAdd bid file newId newPreview s) ∧
    ImagesInv (handleInputDropReplace bid imgId file newPreview s) ∧
    ImagesInv (handleDeleteInput bid imgId s) := by
  refine ⟨?_, ?_, ?_, ?_⟩
  · intro b hb
    rcases List.mem_append.mp hb with hb | hb
    · exact hs b hb
    · exact mkBatches_images_le env (groupFiles files) 0 b hb
  · unfold handleInputDropAdd
    split
    · refine ImagesInv_updateBatch s bid _ (fun b _ => ?_) hs
      rw [List.length_take]
      exact min_le_left _ _
    · exact hs
  · unfold handleInputDropReplace
    split
    · refine ImagesInv_updateBatch s bid _ (fun b hle => ?_) hs
      rw [List.length_map]
      exact hle
    · exact hs
  · refine ImagesInv_updateBatch s bid _ (fun b hle => ?_) hs
    exact le_trans (List.length_filter_le _ _) hle

/-- Claim C9 witness: the four operations applied to a concrete store
that satisfies the invariant. -/
theorem images_length_le_five_witness :
    ImagesInv (handleFolderUpload env0 catsDogsNested st0) ∧
    ImagesInv (handleInputDropAdd bid1 fileW imgX imgX st0) ∧
    ImagesInv (handleInputDropReplace bid1 imgX fileW imgX st0) ∧
    ImagesInv (handleDeleteInput bid1 imgX st0) :=
  images_length_le_five_preserved env0 catsDogsNested st0 bid1 imgX imgX imgX fileW
    (by unfold ImagesInv; decide)

/-- Claim C5, counterexample: after a failed regeneration the undo
stack is not what it was before the call: the current image was pushed
onto it before the client was called. -/
theorem regenerate_failure_mutates_history :
    (handleRegenerate (Except.error boomMsg) tgt0 sess0 st0).1.history ≠ sess0.history := by
  decide

/-- Claim C5, amended: a failed regeneration with a nonblank prompt
leaves the shown image and the whole store (hence the entry at the
originating position) unchanged, but the current image has already been
pushed onto the undo stack and the redo stack has been cleared, because
both happen before the client call regardless of its outcome. -/
theorem regenerate_failure_keeps_image_and_store
    (genMsg : String) (tgt : EditTarget) (sess : EditSession) (s : List BatchItem)
    (hp : ¬ jsTrim sess.prompt = emptyStr) :
    (handleRegenerate (Except.error genMsg) tgt sess s).1.image = sess.image ∧
    (handleRegenerate (Except.error genMsg) tgt sess s).2 = s ∧
    (handleRegenerate (Except.error genMsg) tgt sess s).1.history
      = sess.history ++ [sess.image] ∧
    (handleRegenerate (Except.error genMsg) tgt sess s).1.redoStack = [] := by
  unfold handleRegenerate
  rw [if_neg hp]
  exact ⟨rfl, rfl, rfl, rfl⟩

/-- Claim C5 witness: the amended behaviour at a concrete failing
regeneration. -/
theorem regenerate_failure_witness :
    (handleRegenerate (Except.error boomMsg) tgt0 sess0 st0).1.image = sess0.image ∧
    (handleRegenerate (Except.error boomMsg) tgt0 sess0 st0).2 = st0 ∧
    (handleRegenerate (Except.error boomMsg) tgt0 sess0 st0).1.history
      = sess0.history ++ [sess0.image] ∧
    (handleRegenerate (Except.error boomMsg) tgt0 sess0 st0).1.redoStack = [] :=
  regenerate_failure_keeps_image_and_store boomMsg tgt0 sess0 st0 (by decide)

/-- Claim C6: with a nonempty undo stack, undo followed by redo shows
exactly the image that was current before the undo; and every
regeneration with a nonblank prompt clears the redo stack, whether the
client succeeds or fails. -/
theorem undo_redo_roundtrip_and_regenerate_clears_redo
    (tgt : EditTarget) (sess : EditSession) (s : List BatchItem)
    (genOutcome : Except String String) :
    (sess.history ≠ [] →
      (handleRedo tgt (handleUndo tgt sess s).1 (handleUndo tgt sess s).2).1.image
        = sess.image) ∧
    (¬ jsTrim sess.prompt = emptyStr →
      (handleRegenerate genOutcome tgt sess s).1.redoStack = []) := by
  constructor
  · intro hne
    obtain ⟨L, prev, hh⟩ : ∃ L prev, sess.history = L ++ [prev] := by
      rcases List.eq_nil_or_concat sess.history with h | ⟨L, b, h⟩
      · exact absurd h hne
      · exact ⟨L, b, by simpa [List.concat_eq_append] using h⟩
    simp [handleUndo, handleRedo, onSave, hh, List.getLast?_concat, List.dropLast_concat]
  · intro hp
    unfold handleRegenerate
    rw [if_neg hp]
    cases genOutcome <;> rfl

/-- Claim C6 witness: the round trip and the redo-clearing at a
concrete session. -/
theorem undo_redo_roundtrip_witness :
    (handleRedo tgt0 (handleUndo tgt0 sess0 st0).1 (handleUndo tgt0 sess0 st0).2).1.image
      = sess0.image ∧
    (handleRegenerate (Except.ok imgX) tgt0 sess0 st0).1.redoStack = [] :=
  ⟨(undo_redo_roundtrip_and_regenerate_clears_redo tgt0 sess0 st0 (Except.ok imgX)).1
      (by decide),
   (undo_redo_roundtrip_and_regenerate_clears_redo tgt0 sess0 st0 (Except.ok imgX)).2
      (by decide)⟩
